import Mathlib

/-!
Verification of the solana-liquidity-pool program's pool state machine.

The repository ships only the client scripts and integration tests of the
on-chain program; the instruction handlers themselves (deposit, withdraw,
claim_rewards, start_rewards, admin_withdraw, set_pause, initialize) are not
part of the visible sources.  Following the specification (spec.md §3–§7),
which was written from that program, we build a shallow embedding of the pool
state machine: account balances, LP issuance and user records are explicit
data, every instruction is a pure function returning `Except Err World`, and
machine integers are `Nat` (the on-chain u64 arithmetic is checked, so the
in-range behaviour is plain natural-number arithmetic with floor division).
Field names, PDA seeds and token decimals are taken from the visible callers
and tests (`src/scripts/initialize-pool.ts`, `src/tests/...`).
-/

/-- Error kinds of the pool program, from spec.md §7. -/
inductive Err where
  | unauthorized
  | poolPaused
  | invalidAmount
  | invalidTokenMint
  | insufficientBalance
  | insufficientVaultLiquidity
  | insufficientRewardVault
  | insufficientFunds
  | alreadyInitialized
  | invalidRate
  | zeroValueDeposit
  | notEmpty
deriving DecidableEq

/-- Per-depositor record (spec.md §3 UserState, fields observed in
`deposit.test.ts`: `lpTokenBalance`, `pendingRewards`, plus the reward
checkpoint timestamp used by the accrual formula of §4.6). -/
structure UserState where
  lpTokenBalance : Nat
  pendingRewards : Nat
  lastCheckpoint : Nat
deriving DecidableEq

/-- Pool record (spec.md §3 PoolState; field set observed in the tests of
`initialize-pool.ts`: admin, vault addresses, lpTokenMint, aumUsd,
solDeposited/usdcDeposited, solUsdPrice, reward parameters, paused). Vault
fields hold token-account addresses; balances live in the token ledger. -/
structure PoolState where
  admin : Nat
  solMint : Nat
  usdcMint : Nat
  solVault : Nat
  usdcVault : Nat
  usdcRewardVault : Nat
  lpTokenMint : Nat
  aumUsd : Nat
  solDeposited : Nat
  usdcDeposited : Nat
  solUsdPrice : Nat
  tokensPerInterval : Nat
  rewardStartTime : Nat
  rewardEndTime : Nat
  paused : Bool
deriving DecidableEq

/-- Whole-system state: the pool record, the token ledger (balance of every
token account, keyed by address), and the LP share ledger (total supply and
the on-ledger claim-token balance of every owner) together with the
per-owner UserState records (a record absent on-chain is the zero record,
matching lazy creation on first deposit). -/
structure World where
  pool : PoolState
  accounts : Nat → Nat
  lpSupply : Nat
  lpBalances : Nat → Nat
  users : Nat → UserState

/-- Pointwise update of a token ledger at one address. -/
def setAccount (m : Nat → Nat) (a v : Nat) : Nat → Nat :=
  fun x => if x = a then v else m x

/-- Pointwise update of the user-record map at one owner. -/
def setUser (m : Nat → UserState) (o : Nat) (u : UserState) : Nat → UserState :=
  fun x => if x = o then u else m x

/-- SOL token decimals, from the `createMint` calls in the sources. -/
def solDecimals : Nat := 9

/-- USDC token decimals, from the `createMint` calls in the sources. -/
def usdcDecimals : Nat := 6

/-- Modelled from the spec: ValuationEngine (spec.md §4.1), the instruction
handlers being absent from the sources.  `usdValue = rawAmount * price /
10^assetDecimals`, floor division on naturals. -/
def valueInUsd (rawAmount price decimals : Nat) : Nat :=
  rawAmount * price / 10 ^ decimals

/-- Clamp a timestamp into the reward window `[s, e]` (spec.md §4.6). -/
def clampTime (t s e : Nat) : Nat := max s (min t e)

/-- Modelled from the spec: RewardAccrualEngine incremental accrual
(spec.md §4.6), the instruction handlers being absent from the sources.
`accrued = tokensPerInterval * elapsed * userLpBalance / totalLpSupply`,
zero when the total supply is zero, where `elapsed` is the window-clamped
time since the user's checkpoint. -/
def accruedRewards (p : PoolState) (userLp supply lastCheckpoint now : Nat) : Nat :=
  if supply = 0 then 0
  else
    p.tokensPerInterval *
      (clampTime now p.rewardStartTime p.rewardEndTime
        - clampTime lastCheckpoint p.rewardStartTime p.rewardEndTime) *
      userLp / supply

/-- Resolve a mint to the pool's vault address and the asset's decimals;
a mint that is neither configured vault asset is rejected with
`InvalidTokenMint` (spec.md §4.3 preconditions). -/
def vaultFor (p : PoolState) (asset : Nat) : Except Err (Nat × Nat) :=
  if asset = p.solMint then .ok (p.solVault, solDecimals)
  else if asset = p.usdcMint then .ok (p.usdcVault, usdcDecimals)
  else .error .invalidTokenMint

/-- External token-transfer primitive (spec.md §6): debit `src`, credit
`dst`, failing when `src` lacks funds.  Debit before credit so that an
aliased `src = dst` transfer is a no-op rather than inflation. -/
def transferTok (m : Nat → Nat) (src dst amount : Nat) : Except Err (Nat → Nat) :=
  if m src < amount then .error .insufficientFunds
  else
    let m1 := setAccount m src (m src - amount)
    .ok (setAccount m1 dst (m1 dst + amount))

/-- Modelled from the spec: the `deposit` instruction (spec.md §4.3 with the
mint rule of §4.2), the instruction handlers being absent from the sources.
Checks pause, positive amount, configured mint, positive USD value and user
funds, then transfers the tokens into the vault, mints LP 1:1 on an empty
pool and pro-rata `usdValue * supply / aumUsd` otherwise, updates the pool
accounting fields, mirrors the minted amount into UserState and advances the
user's reward checkpoint using the pre-deposit balance. -/
def deposit (w : World) (caller userAcct asset amount price now : Nat) :
    Except Err World :=
  if w.pool.paused then .error .poolPaused
  else if amount = 0 then .error .invalidAmount
  else match vaultFor w.pool asset with
  | .error e => .error e
  | .ok (vault, decimals) =>
    let usdValue := valueInUsd amount price decimals
    if usdValue = 0 then .error .zeroValueDeposit
    else if w.accounts userAcct < amount then .error .insufficientFunds
    else
      let lpMinted :=
        if w.lpSupply = 0 then usdValue
        else usdValue * w.lpSupply / w.pool.aumUsd
      let u := w.users caller
      let accrued := accruedRewards w.pool u.lpTokenBalance w.lpSupply u.lastCheckpoint now
      let accounts1 := setAccount w.accounts userAcct (w.accounts userAcct - amount)
      let accounts2 := setAccount accounts1 vault (accounts1 vault + amount)
      .ok
        { pool :=
            { w.pool with
              aumUsd := w.pool.aumUsd + usdValue
              solDeposited :=
                if asset = w.pool.solMint then w.pool.solDeposited + amount
                else w.pool.solDeposited
              usdcDeposited :=
                if asset = w.pool.solMint then w.pool.usdcDeposited
                else w.pool.usdcDeposited + amount
              solUsdPrice :=
                if asset = w.pool.solMint then price else w.pool.solUsdPrice }
          accounts := accounts2
          lpSupply := w.lpSupply + lpMinted
          lpBalances := setAccount w.lpBalances caller (w.lpBalances caller + lpMinted)
          users :=
            setUser w.users caller
              { lpTokenBalance := u.lpTokenBalance + lpMinted
                pendingRewards := u.pendingRewards + accrued
                lastCheckpoint := now } }

/-- Modelled from the spec: the `withdraw` instruction (spec.md §4.4 with the
redemption rule of §4.2), the instruction handlers being absent from the
sources.  Checks pause, positive amount, configured mint, sufficient LP
balance and vault liquidity; accrues pending rewards at the pre-withdrawal
balance, burns the LP amount, pays out `floor(lpAmount * aumUsd / lpSupply)`
USD converted to raw units at the current price, and decreases `aumUsd` by
the paid-out USD value. -/
def withdraw (w : World) (caller userAcct asset lpAmount price now : Nat) :
    Except Err World :=
  if w.pool.paused then .error .poolPaused
  else if lpAmount = 0 then .error .invalidAmount
  else match vaultFor w.pool asset with
  | .error e => .error e
  | .ok (vault, decimals) =>
    if w.lpBalances caller < lpAmount then .error .insufficientBalance
    else
      let payoutUsd := lpAmount * w.pool.aumUsd / w.lpSupply
      let rawPayout := payoutUsd * 10 ^ decimals / price
      if w.accounts vault < rawPayout then .error .insufficientVaultLiquidity
      else
        let u := w.users caller
        let accrued := accruedRewards w.pool u.lpTokenBalance w.lpSupply u.lastCheckpoint now
        let accounts1 := setAccount w.accounts vault (w.accounts vault - rawPayout)
        let accounts2 := setAccount accounts1 userAcct (accounts1 userAcct + rawPayout)
        .ok
          { pool := { w.pool with aumUsd := w.pool.aumUsd - payoutUsd }
            accounts := accounts2
            lpSupply := w.lpSupply - lpAmount
            lpBalances := setAccount w.lpBalances caller (w.lpBalances caller - lpAmount)
            users :=
              setUser w.users caller
                { lpTokenBalance := u.lpTokenBalance - lpAmount
                  pendingRewards := u.pendingRewards + accrued
                  lastCheckpoint := now } }

/-- Modelled from the spec: the `claim_rewards` instruction (spec.md §4.6),
the instruction handlers being absent from the sources.  Accrues the
window-clamped entitlement since the last checkpoint, pays the full pending
amount from the reward vault (hard failure when the vault cannot cover it),
resets `pendingRewards` and advances the checkpoint to `now`. -/
def claimRewards (w : World) (caller userAcct now : Nat) : Except Err World :=
  let u := w.users caller
  let accrued := accruedRewards w.pool u.lpTokenBalance w.lpSupply u.lastCheckpoint now
  let total := u.pendingRewards + accrued
  if w.accounts w.pool.usdcRewardVault < total then .error .insufficientRewardVault
  else
    let accounts1 :=
      setAccount w.accounts w.pool.usdcRewardVault
        (w.accounts w.pool.usdcRewardVault - total)
    let accounts2 := setAccount accounts1 userAcct (accounts1 userAcct + total)
    .ok
      { w with
        accounts := accounts2
        users :=
          setUser w.users caller
            { u with pendingRewards := 0, lastCheckpoint := now } }

/-- Modelled from the spec: the `start_rewards` instruction (spec.md §4.5),
the instruction handlers being absent from the sources.  Admin-only; rejects
a zero emission rate with `InvalidRate`; funds the reward vault from the
admin's account and sets the emission window
`[now, now + rewardAmount / tokensPerInterval]`. -/
def startRewards (w : World) (caller adminAcct rewardAmount tpi now : Nat) :
    Except Err World :=
  if caller ≠ w.pool.admin then .error .unauthorized
  else if tpi = 0 then .error .invalidRate
  else match transferTok w.accounts adminAcct w.pool.usdcRewardVault rewardAmount with
  | .error e => .error e
  | .ok accounts =>
    .ok
      { w with
        accounts := accounts
        pool :=
          { w.pool with
            tokensPerInterval := tpi
            rewardStartTime := now
            rewardEndTime := now + rewardAmount / tpi } }

/-- Modelled from the spec: the `admin_withdraw` instruction (spec.md §4.7),
the instruction handlers being absent from the sources.  Admin-only; moves
`amount` of the asset from the pool vault to the admin's account and touches
nothing else — neither `aumUsd` nor the LP ledger. -/
def adminWithdraw (w : World) (caller adminAcct asset amount : Nat) :
    Except Err World :=
  if caller ≠ w.pool.admin then .error .unauthorized
  else match vaultFor w.pool asset with
  | .error e => .error e
  | .ok (vault, _) =>
    match transferTok w.accounts vault adminAcct amount with
    | .error e => .error e
    | .ok accounts => .ok { w with accounts := accounts }

/-- Modelled from the spec: the `set_pause` instruction (spec.md §4.7), the
instruction handlers being absent from the sources.  Admin-only; writes the
pause flag, effective for subsequent operations. -/
def setPause (w : World) (caller : Nat) (b : Bool) : Except Err World :=
  if caller ≠ w.pool.admin then .error .unauthorized
  else .ok { w with pool := { w.pool with paused := b } }

/-- Modelled from the spec: the `initialize` instruction (spec.md §4.7), the
instruction handlers being absent from the sources.  Creates the PoolState
with zeroed accounting fields and `paused = false`, failing only when the
singleton record already exists; the vault account addresses are stored as
given, with no distinctness constraint between them (the visible callers in
`initialize-pool.ts` and `deposit.test.ts` pass the same account for
`usdcVault` and `usdcRewardVault` and the pool initializes successfully). -/
def initPool (alreadyExists : Bool)
    (admin solMint usdcMint solVault usdcVault lpTokenMint usdcRewardVault : Nat) :
    Except Err PoolState :=
  if alreadyExists then .error .alreadyInitialized
  else
    .ok
      { admin := admin
        solMint := solMint
        usdcMint := usdcMint
        solVault := solVault
        usdcVault := usdcVault
        usdcRewardVault := usdcRewardVault
        lpTokenMint := lpTokenMint
        aumUsd := 0
        solDeposited := 0
        usdcDeposited := 0
        solUsdPrice := 0
        tokensPerInterval := 0
        rewardStartTime := 0
        rewardEndTime := 0
        paused := false }

/-- One seed of a program-derived address: either a string literal or a
public key, as in the `findProgramAddressSync` calls of the sources. -/
inductive Seed where
  | lit (s : String)
  | key (k : Nat)
deriving DecidableEq

/-- A program-derived address, idealized as the pair of its seed list and
the deriving program's id: the on-chain derivation is a collision-resistant
hash of exactly these inputs, so distinct inputs give distinct addresses. -/
structure Pda where
  seeds : List Seed
  programId : Nat
deriving DecidableEq

/-- Idealized `findProgramAddressSync`: deterministic in the seeds and the
program id, injective by the collision-resistance idealization. -/
def findProgramAddress (seeds : List Seed) (programId : Nat) : Pda :=
  ⟨seeds, programId⟩

/-- PoolState address: fixed seed `"pool-state"` under the program id
(`initialize-pool.ts`, `deposit.test.ts`). -/
def poolStateAddress (programId : Nat) : Pda :=
  findProgramAddress [Seed.lit "pool-state"] programId

/-- UserState address: seeds `"user-state"` and the owner's key under the
program id (`deposit.test.ts` line 154, `closeUserState` script). -/
def userStateAddress (programId owner : Nat) : Pda :=
  findProgramAddress [Seed.lit "user-state", Seed.key owner] programId

/-- A freshly initialized pool world: admin 1, SOL mint 2 / USDC mint 3,
vault addresses 10/11, reward vault 12, one user token account (20) holding
1000 units, empty LP ledger and zero user records. -/
def w0 : World :=
  { pool :=
      { admin := 1
        solMint := 2
        usdcMint := 3
        solVault := 10
        usdcVault := 11
        usdcRewardVault := 12
        lpTokenMint := 4
        aumUsd := 0
        solDeposited := 0
        usdcDeposited := 0
        solUsdPrice := 0
        tokensPerInterval := 0
        rewardStartTime := 0
        rewardEndTime := 0
        paused := false }
    accounts := fun a => if a = 20 then 1000 else 0
    lpSupply := 0
    lpBalances := fun _ => 0
    users := fun _ => ⟨0, 0, 0⟩ }

/-- A pool mid-life: user 7 holds the whole LP supply of 10 minted against
an AUM of 10 USD, an active reward stream at rate 2 over the window
`[0, 100]`, 150 units in the reward vault (12) and 10 units in the USDC
vault (11). -/
def wR : World :=
  { pool :=
      { admin := 1
        solMint := 2
        usdcMint := 3
        solVault := 10
        usdcVault := 11
        usdcRewardVault := 12
        lpTokenMint := 4
        aumUsd := 10
        solDeposited := 0
        usdcDeposited := 10
        solUsdPrice := 0
        tokensPerInterval := 2
        rewardStartTime := 0
        rewardEndTime := 100
        paused := false }
    accounts := fun a => if a = 12 then 150 else if a = 11 then 10 else 0
    lpSupply := 10
    lpBalances := fun o => if o = 7 then 10 else 0
    users := setUser (fun _ => ⟨0, 0, 0⟩) 7 ⟨10, 0, 0⟩ }

/-- The world `w0` with the pause flag raised. -/
def wP : World := { w0 with pool := { w0.pool with paused := true } }

/-- C1. For every deposit of positive USD value `V`: when the total LP
supply before the deposit is zero exactly `V` LP tokens are minted to the
depositor (1:1, in total supply, on-ledger balance and the UserState
mirror); otherwise `floor(V * totalSupplyBefore / aumUsdBefore)` LP tokens
are minted; and a deposit whose USD value is zero fails with
`ZeroValueDeposit` instead of minting zero tokens. -/
theorem deposit_mint_rule (w : World)
    (caller userAcct asset amount price now vault decimals : Nat)
    (hp : w.pool.paused = false)
    (ha : amount ≠ 0)
    (hv : vaultFor w.pool asset = .ok (vault, decimals))
    (hf : amount ≤ w.accounts userAcct) :
    (valueInUsd amount price decimals = 0 →
      deposit w caller userAcct asset amount price now = .error .zeroValueDeposit)
    ∧ (valueInUsd amount price decimals ≠ 0 →
      (deposit w caller userAcct asset amount price now).map
          (fun w' => (w'.lpSupply, w'.lpBalances caller, (w'.users caller).lpTokenBalance)) =
        .ok
          (w.lpSupply +
            (if w.lpSupply = 0 then valueInUsd amount price decimals
             else valueInUsd amount price decimals * w.lpSupply / w.pool.aumUsd),
           w.lpBalances caller +
            (if w.lpSupply = 0 then valueInUsd amount price decimals
             else valueInUsd amount price decimals * w.lpSupply / w.pool.aumUsd),
           (w.users caller).lpTokenBalance +
            (if w.lpSupply = 0 then valueInUsd amount price decimals
             else valueInUsd amount price decimals * w.lpSupply / w.pool.aumUsd))) := by
  have hflt : ¬ (w.accounts userAcct < amount) := Nat.not_lt.mpr hf
  constructor
  · intro h0
    simp [deposit, hp, ha, hv, h0]
  · intro hV
    simp [deposit, hp, ha, hv, hV, hflt, Except.map, setAccount, setUser]

/-- Concrete instance of `deposit_mint_rule`: depositing 1000 USDC units at
price 10^6 into the empty pool `w0` mints exactly 1000 LP tokens. -/
theorem deposit_mint_rule_witness :
    w0.pool.paused = false ∧ (1000 : Nat) ≠ 0 ∧
    (deposit w0 7 20 3 1000 1000000 0).map
        (fun w' => (w'.lpSupply, w'.lpBalances 7, (w'.users 7).lpTokenBalance)) =
      .ok (1000, 1000, 1000) := by
  refine ⟨rfl, by decide, ?_⟩
  have h := (deposit_mint_rule w0 7 20 3 1000 1000000 0 11 6 rfl (by decide) rfl
    (by decide)).2 (by decide)
  exact h

/-- C6. A deposit whose mint is neither configured vault asset fails with
`InvalidTokenMint`; in this embedding every instruction is a pure function
returning `Except Err World`, so any failure produces no successor state at
all — pool accounting, LP supply, user balances and vault balances are
exactly as before the call, and no failed operation leaves a partial
mutation behind, by construction. -/
theorem deposit_invalid_mint_rejected (w : World)
    (caller userAcct asset amount price now : Nat)
    (hp : w.pool.paused = false)
    (ha : amount ≠ 0)
    (h1 : asset ≠ w.pool.solMint)
    (h2 : asset ≠ w.pool.usdcMint) :
    deposit w caller userAcct asset amount price now = .error .invalidTokenMint := by
  simp [deposit, hp, ha, vaultFor, h1, h2]

/-- Concrete instance of `deposit_invalid_mint_rejected`: mint 5 is neither
the SOL mint 2 nor the USDC mint 3 of `w0`, so the deposit is rejected. -/
theorem deposit_invalid_mint_rejected_witness :
    w0.pool.paused = false ∧ (5 : Nat) ≠ w0.pool.solMint ∧ (5 : Nat) ≠ w0.pool.usdcMint ∧
    deposit w0 7 20 5 1000 1000000 0 = .error .invalidTokenMint :=
  ⟨rfl, by decide, by decide,
    deposit_invalid_mint_rejected w0 7 20 5 1000 1000000 0 rfl (by decide)
      (by decide) (by decide)⟩

/-- C5. The UserState record is located by a deterministic derivation on
the program (pool) identity and the owner: distinct (pool, owner) pairs
yield distinct addresses, and in particular two different pools never map
the same owner to the same UserState record (the pool is the singleton
`"pool-state"` PDA of its program, so distinct pools live under distinct
program ids and the `"user-state"` derivation separates them). -/
theorem userState_pda_distinct (p1 o1 p2 o2 : Nat)
    (h : (poolStateAddress p1, o1) ≠ (poolStateAddress p2, o2)) :
    userStateAddress p1 o1 ≠ userStateAddress p2 o2 := by
  intro heq
  apply h
  have hprog : p1 = p2 := congrArg Pda.programId heq
  have hseeds := congrArg Pda.seeds heq
  simp only [userStateAddress, findProgramAddress] at hseeds
  have howner : o1 = o2 := by
    simpa using hseeds
  subst hprog
  subst howner
  rfl

/-- Concrete instance of `userState_pda_distinct`: the same owner 0 under
two different programs (hence two different pools) gets two different
UserState addresses. -/
theorem userState_pda_distinct_witness :
    ((poolStateAddress 0, 0) ≠ (poolStateAddress 1, 0)) ∧
    userStateAddress 0 0 ≠ userStateAddress 1 0 := by
  have hne : (poolStateAddress 0, (0 : Nat)) ≠ (poolStateAddress 1, 0) := by
    simp [poolStateAddress, findProgramAddress]
  exact ⟨hne, userState_pda_distinct 0 0 1 0 hne⟩

/-- C2. A withdraw of LP amount `L > 0` by a caller holding at least `L`
LP tokens, from a pool with positive total supply `S` and AUM `A`, burns
exactly `L` from the caller (total supply, on-ledger balance and UserState
mirror), pays out `floor(L * A / S)` USD converted to raw units of the
requested asset at the current oracle price, and decreases `aumUsd` by that
payout value; a caller holding fewer than `L` LP tokens fails with
`InsufficientBalance`. -/
theorem withdraw_pro_rata (w : World)
    (caller userAcct asset lpAmount price now vault decimals : Nat)
    (hp : w.pool.paused = false)
    (hl : lpAmount ≠ 0)
    (hv : vaultFor w.pool asset = .ok (vault, decimals)) :
    (w.lpBalances caller < lpAmount →
      withdraw w caller userAcct asset lpAmount price now = .error .insufficientBalance)
    ∧ (∀ (hb : lpAmount ≤ w.lpBalances caller) (hS : 0 < w.lpSupply)
        (hvl : lpAmount * w.pool.aumUsd / w.lpSupply * 10 ^ decimals / price ≤ w.accounts vault)
        (hne : userAcct ≠ vault),
      (withdraw w caller userAcct asset lpAmount price now).map
          (fun w' => (w'.lpSupply, w'.lpBalances caller, (w'.users caller).lpTokenBalance,
                      w'.pool.aumUsd, w'.accounts userAcct)) =
        .ok (w.lpSupply - lpAmount, w.lpBalances caller - lpAmount,
             (w.users caller).lpTokenBalance - lpAmount,
             w.pool.aumUsd - lpAmount * w.pool.aumUsd / w.lpSupply,
             w.accounts userAcct +
               lpAmount * w.pool.aumUsd / w.lpSupply * 10 ^ decimals / price)) := by
  constructor
  · intro hins
    simp [withdraw, hp, hl, hv, hins]
  · intro hb _hS hvl hne
    have hblt : ¬ (w.lpBalances caller < lpAmount) := Nat.not_lt.mpr hb
    have hvlt : ¬ (w.accounts vault <
        lpAmount * w.pool.aumUsd / w.lpSupply * 10 ^ decimals / price) := Nat.not_lt.mpr hvl
    simp [withdraw, hp, hl, hv, hblt, hvlt, Except.map, setAccount, setUser, hne]

/-- Concrete instance of `withdraw_pro_rata`: redeeming 5 of the 10 LP
tokens of `wR` (AUM 10) pays out 5 USD = 5 raw units at price 10^6 and
burns exactly 5. -/
theorem withdraw_pro_rata_witness :
    wR.pool.paused = false ∧ (5 : Nat) ≤ wR.lpBalances 7 ∧ 0 < wR.lpSupply ∧
    (withdraw wR 7 20 3 5 1000000 50).map
        (fun w' => (w'.lpSupply, w'.lpBalances 7, (w'.users 7).lpTokenBalance,
                    w'.pool.aumUsd, w'.accounts 20)) =
      .ok (5, 5, 5, 5, 5) := by
  refine ⟨rfl, by decide, by decide, ?_⟩
  have h := (withdraw_pro_rata wR 7 20 3 5 1000000 50 11 6 rfl (by decide) rfl).2
    (by decide) (by decide) (by decide) (by decide)
  exact h

/-- C3. `claimRewards` accrues `tokensPerInterval * elapsed * userLpBalance
/ totalLpSupply` with `elapsed` the difference of the window-clamped `now`
and window-clamped last checkpoint (and zero accrual when the total supply
is zero); the accrual joins `pendingRewards`, the full pending amount is
transferred to the caller — failing with `InsufficientRewardVault` when the
reward vault cannot cover it, never paying partially — `pendingRewards` is
reset to 0 and `lastCheckpoint` is advanced to `now`. -/
theorem claimRewards_spec (w : World) (caller userAcct now : Nat) :
    (w.accounts w.pool.usdcRewardVault <
        (w.users caller).pendingRewards +
          (if w.lpSupply = 0 then 0
           else w.pool.tokensPerInterval *
              (clampTime now w.pool.rewardStartTime w.pool.rewardEndTime -
                clampTime (w.users caller).lastCheckpoint w.pool.rewardStartTime
                  w.pool.rewardEndTime) *
              (w.users caller).lpTokenBalance / w.lpSupply) →
      claimRewards w caller userAcct now = .error .insufficientRewardVault)
    ∧ (∀ (hcov : (w.users caller).pendingRewards +
          (if w.lpSupply = 0 then 0
           else w.pool.tokensPerInterval *
              (clampTime now w.pool.rewardStartTime w.pool.rewardEndTime -
                clampTime (w.users caller).lastCheckpoint w.pool.rewardStartTime
                  w.pool.rewardEndTime) *
              (w.users caller).lpTokenBalance / w.lpSupply) ≤
          w.accounts w.pool.usdcRewardVault)
        (hne : userAcct ≠ w.pool.usdcRewardVault),
      (claimRewards w caller userAcct now).map
          (fun w' => ((w'.users caller).pendingRewards, (w'.users caller).lastCheckpoint,
                      (w'.users caller).lpTokenBalance,
                      w'.accounts userAcct, w'.accounts w.pool.usdcRewardVault)) =
        .ok (0, now, (w.users caller).lpTokenBalance,
             w.accounts userAcct +
               ((w.users caller).pendingRewards +
                 (if w.lpSupply = 0 then 0
                  else w.pool.tokensPerInterval *
                     (clampTime now w.pool.rewardStartTime w.pool.rewardEndTime -
                       clampTime (w.users caller).lastCheckpoint w.pool.rewardStartTime
                         w.pool.rewardEndTime) *
                     (w.users caller).lpTokenBalance / w.lpSupply)),
             w.accounts w.pool.usdcRewardVault -
               ((w.users caller).pendingRewards +
                 (if w.lpSupply = 0 then 0
                  else w.pool.tokensPerInterval *
                     (clampTime now w.pool.rewardStartTime w.pool.rewardEndTime -
                       clampTime (w.users caller).lastCheckpoint w.pool.rewardStartTime
                         w.pool.rewardEndTime) *
                     (w.users caller).lpTokenBalance / w.lpSupply)))) := by
  constructor
  · intro hins
    simp only [claimRewards, accruedRewards]
    rw [if_pos hins]
  · intro hcov hne
    have hlt : ¬ (w.accounts w.pool.usdcRewardVault <
        (w.users caller).pendingRewards +
          (if w.lpSupply = 0 then 0
           else w.pool.tokensPerInterval *
              (clampTime now w.pool.rewardStartTime w.pool.rewardEndTime -
                clampTime (w.users caller).lastCheckpoint w.pool.rewardStartTime
                  w.pool.rewardEndTime) *
              (w.users caller).lpTokenBalance / w.lpSupply)) := Nat.not_lt.mpr hcov
    simp only [claimRewards, accruedRewards]
    rw [if_neg hlt]
    simp [Except.map, setAccount, setUser, hne, Ne.symm hne]

/-- Concrete instance of `claimRewards_spec`: in `wR` at time 50 user 7
(holding the full supply) accrues 2 * 50 * 10 / 10 = 100, is paid the full
100 from the reward vault, and ends with zero pending and checkpoint 50. -/
theorem claimRewards_spec_witness :
    ((7 : Nat) ≠ wR.pool.usdcRewardVault) ∧
    (claimRewards wR 7 21 50).map
        (fun w' => ((w'.users 7).pendingRewards, (w'.users 7).lastCheckpoint,
                    (w'.users 7).lpTokenBalance,
                    w'.accounts 21, w'.accounts wR.pool.usdcRewardVault)) =
      .ok (0, 50, 10, 100, 50) := by
  refine ⟨by decide, ?_⟩
  have h := (claimRewards_spec wR 7 21 50).2 (by decide) (by decide)
  exact h

/-- C4. `startRewards` by the admin with `tokensPerInterval > 0` transfers
`rewardAmount` of the reward asset from the admin's account into the reward
vault, sets `rewardStartTime = now`,
`rewardEndTime = now + floor(rewardAmount / tokensPerInterval)` and stores
`tokensPerInterval`; a zero rate fails with `InvalidRate`. -/
theorem startRewards_spec (w : World) (caller adminAcct rewardAmount tpi now : Nat)
    (hadmin : caller = w.pool.admin) :
    (tpi = 0 → startRewards w caller adminAcct rewardAmount tpi now = .error .invalidRate)
    ∧ (∀ (htpi : tpi ≠ 0) (hf : rewardAmount ≤ w.accounts adminAcct)
        (hne : adminAcct ≠ w.pool.usdcRewardVault),
      (startRewards w caller adminAcct rewardAmount tpi now).map
          (fun w' => (w'.accounts w.pool.usdcRewardVault, w'.accounts adminAcct,
                      w'.pool.rewardStartTime, w'.pool.rewardEndTime,
                      w'.pool.tokensPerInterval)) =
        .ok (w.accounts w.pool.usdcRewardVault + rewardAmount,
             w.accounts adminAcct - rewardAmount,
             now, now + rewardAmount / tpi, tpi)) := by
  constructor
  · intro h0
    simp [startRewards, hadmin, h0]
  · intro htpi hf hne
    have hflt : ¬ (w.accounts adminAcct < rewardAmount) := Nat.not_lt.mpr hf
    simp [startRewards, hadmin, htpi, transferTok, hflt, Except.map,
      setAccount, hne, Ne.symm hne]

/-- Concrete instance of `startRewards_spec`: the admin of `w0` funds 100
reward units from account 20 at rate 4, giving the window `[9, 9 + 25]`. -/
theorem startRewards_spec_witness :
    ((1 : Nat) = w0.pool.admin) ∧ ((4 : Nat) ≠ 0) ∧
    (startRewards w0 1 20 100 4 9).map
        (fun w' => (w'.accounts w0.pool.usdcRewardVault, w'.accounts 20,
                    w'.pool.rewardStartTime, w'.pool.rewardEndTime,
                    w'.pool.tokensPerInterval)) =
      .ok (100, 900, 9, 34, 4) := by
  refine ⟨rfl, by decide, ?_⟩
  have h := (startRewards_spec w0 1 20 100 4 9 rfl).2 (by decide) (by decide) (by decide)
  exact h

/-- C8. `adminWithdraw(asset, amount)` by the admin moves exactly `amount`
of the asset from that asset's pool vault to the admin-controlled account,
and every other state component — the pool record (hence `aumUsd` and the
reward parameters), the LP total supply, every user's LP balance and
UserState record, and every other token account (hence the other asset
vaults) — is unchanged. -/
theorem adminWithdraw_frame (w : World) (caller adminAcct asset amount vault decimals : Nat)
    (hadmin : caller = w.pool.admin)
    (hv : vaultFor w.pool asset = .ok (vault, decimals))
    (hf : amount ≤ w.accounts vault)
    (hne : adminAcct ≠ vault) :
    (adminWithdraw w caller adminAcct asset amount).map
        (fun w' => (w'.accounts vault, w'.accounts adminAcct,
                    w'.pool, w'.lpSupply)) =
      .ok (w.accounts vault - amount, w.accounts adminAcct + amount,
           w.pool, w.lpSupply)
    ∧ (adminWithdraw w caller adminAcct asset amount).map
        (fun w' => w'.lpBalances) = .ok w.lpBalances
    ∧ (adminWithdraw w caller adminAcct asset amount).map
        (fun w' => w'.users) = .ok w.users
    ∧ (∀ a, a ≠ vault → a ≠ adminAcct →
        (adminWithdraw w caller adminAcct asset amount).map
          (fun w' => w'.accounts a) = .ok (w.accounts a)) := by
  have hflt : ¬ (w.accounts vault < amount) := Nat.not_lt.mpr hf
  refine ⟨?_, ?_, ?_, ?_⟩
  · simp [adminWithdraw, hadmin, hv, transferTok, hflt, Except.map,
      setAccount, hne, Ne.symm hne]
  · simp [adminWithdraw, hadmin, hv, transferTok, hflt, Except.map]
  · simp [adminWithdraw, hadmin, hv, transferTok, hflt, Except.map]
  · intro a ha1 ha2
    simp [adminWithdraw, hadmin, hv, transferTok, hflt, Except.map,
      setAccount, ha1, ha2]

/-- Concrete instance of `adminWithdraw_frame`: the admin of `wR` pulls 5
units out of the USDC vault (address 11); the vault drops from 10 to 5, the
admin account 21 receives 5, and the pool record, LP ledger, user records
and the unrelated account 10 are untouched. -/
theorem adminWithdraw_frame_witness :
    ((1 : Nat) = wR.pool.admin) ∧
    (adminWithdraw wR 1 21 3 5).map
        (fun w' => (w'.accounts 11, w'.accounts 21, w'.pool, w'.lpSupply)) =
      .ok (5, 5, wR.pool, 10) ∧
    (adminWithdraw wR 1 21 3 5).map (fun w' => w'.accounts 10) =
      .ok (wR.accounts 10) := by
  refine ⟨rfl, ?_, ?_⟩
  · have h := (adminWithdraw_frame wR 1 21 3 5 11 6 rfl rfl (by decide) (by decide)).1
    exact h
  · have h := (adminWithdraw_frame wR 1 21 3 5 11 6 rfl rfl (by decide) (by decide)).2.2.2
      10 (by decide) (by decide)
    exact h

/-- An unpaused pool never rejects a deposit with `PoolPaused`: the pause
gate is the only source of that error in `deposit`. -/
theorem deposit_not_poolPaused (w : World) (caller userAcct asset amount price now : Nat)
    (hp : w.pool.paused = false) :
    deposit w caller userAcct asset amount price now ≠ .error .poolPaused := by
  intro h
  unfold deposit at h
  rw [hp] at h
  simp only [Bool.false_eq_true, if_false] at h
  split at h
  · simp at h
  · split at h
    · rename_i e heq
      injection h with h'
      subst h'
      unfold vaultFor at heq
      split_ifs at heq <;> simp_all
    · split at h
      · simp at h
      · split at h
        · simp at h
        · simp at h

/-- An unpaused pool never rejects a withdraw with `PoolPaused`. -/
theorem withdraw_not_poolPaused (w : World) (caller userAcct asset lpAmount price now : Nat)
    (hp : w.pool.paused = false) :
    withdraw w caller userAcct asset lpAmount price now ≠ .error .poolPaused := by
  intro h
  unfold withdraw at h
  rw [hp] at h
  simp only [Bool.false_eq_true, if_false] at h
  split at h
  · simp at h
  · split at h
    · rename_i e heq
      injection h with h'
      subst h'
      unfold vaultFor at heq
      split_ifs at heq <;> simp_all
    · split at h
      · simp at h
      · split at h
        · simp at h
        · simp at h

/-- C7. With `paused = true` every deposit and every withdraw fails with
`PoolPaused`, while `setPause` and `adminWithdraw` by the admin still
succeed; and after `setPause(false)` the gate is lifted immediately: the
resulting pool is unpaused and no subsequent deposit or withdraw can fail
with `PoolPaused`. -/
theorem pause_gating (w : World) (caller : Nat)
    (hpause : w.pool.paused = true)
    (hadmin : caller = w.pool.admin) :
    (∀ u ua asset amount price now,
      deposit w u ua asset amount price now = .error .poolPaused)
    ∧ (∀ u ua asset lpAmount price now,
      withdraw w u ua asset lpAmount price now = .error .poolPaused)
    ∧ (∀ b, (setPause w caller b).map (fun w' => w'.pool.paused) = .ok b)
    ∧ (∀ adminAcct asset amount vault decimals,
        vaultFor w.pool asset = .ok (vault, decimals) →
        amount ≤ w.accounts vault →
        (adminWithdraw w caller adminAcct asset amount).map
          (fun w' => w'.pool.paused) = .ok true)
    ∧ (∀ w', setPause w caller false = .ok w' →
        w'.pool.paused = false ∧
        (∀ u ua asset amount price now,
          deposit w' u ua asset amount price now ≠ .error .poolPaused) ∧
        (∀ u ua asset lpAmount price now,
          withdraw w' u ua asset lpAmount price now ≠ .error .poolPaused)) := by
  refine ⟨?_, ?_, ?_, ?_, ?_⟩
  · intro u ua asset amount price now
    simp [deposit, hpause]
  · intro u ua asset lpAmount price now
    simp [withdraw, hpause]
  · intro b
    simp [setPause, hadmin, Except.map]
  · intro adminAcct asset amount vault decimals hv hf
    have hflt : ¬ (w.accounts vault < amount) := Nat.not_lt.mpr hf
    simp [adminWithdraw, hadmin, hv, transferTok, hflt, Except.map, hpause]
  · intro w' hset
    have hw' : w' = { w with pool := { w.pool with paused := false } } := by
      simp [setPause, hadmin] at hset
      exact hset.symm
    subst hw'
    refine ⟨rfl, ?_, ?_⟩
    · intro u ua asset amount price now
      exact deposit_not_poolPaused _ u ua asset amount price now rfl
    · intro u ua asset lpAmount price now
      exact withdraw_not_poolPaused _ u ua asset lpAmount price now rfl

/-- Concrete instance of `pause_gating` on the paused world `wP`: a deposit
and a withdraw are rejected with `PoolPaused`, the admin can still flip the
flag and withdraw from a vault, and the unpause takes effect at once. -/
theorem pause_gating_witness :
    wP.pool.paused = true ∧
    deposit wP 7 20 3 1000 1000000 0 = .error .poolPaused ∧
    withdraw wP 7 20 3 5 1000000 0 = .error .poolPaused ∧
    (setPause wP 1 false).map (fun w' => w'.pool.paused) = .ok false ∧
    (adminWithdraw wP 1 21 3 0).map (fun w' => w'.pool.paused) = .ok true := by
  have h := pause_gating wP 1 rfl rfl
  exact ⟨rfl, h.1 7 20 3 1000 1000000 0, h.2.1 7 20 3 5 1000000 0,
    h.2.2.1 false, h.2.2.2.1 21 3 0 11 6 rfl (by decide)⟩

/-- C9. The UserState field `lpTokenBalance` mirrors the on-ledger LP
claim-token balance of the owner: if the mirror equality holds at an owner
`o` (and at the caller) before a successful `deposit`, `withdraw` or
`claimRewards`, it holds at `o` afterwards — each operation changes the
UserState mirror and the share ledger by the same amount. -/
theorem lp_mirror_preserved (w : World) (o : Nat)
    (hmo : (w.users o).lpTokenBalance = w.lpBalances o) :
    (∀ caller userAcct asset amount price now w',
      (w.users caller).lpTokenBalance = w.lpBalances caller →
      deposit w caller userAcct asset amount price now = .ok w' →
      (w'.users o).lpTokenBalance = w'.lpBalances o)
    ∧ (∀ caller userAcct asset lpAmount price now w',
      (w.users caller).lpTokenBalance = w.lpBalances caller →
      withdraw w caller userAcct asset lpAmount price now = .ok w' →
      (w'.users o).lpTokenBalance = w'.lpBalances o)
    ∧ (∀ caller userAcct now w',
      (w.users caller).lpTokenBalance = w.lpBalances caller →
      claimRewards w caller userAcct now = .ok w' →
      (w'.users o).lpTokenBalance = w'.lpBalances o) := by
  refine ⟨?_, ?_, ?_⟩
  · intro caller userAcct asset amount price now w' hmc hstep
    simp only [deposit] at hstep
    repeat' split at hstep
    all_goals
      first
      | exact Except.noConfusion hstep
      | (injection hstep with h; subst h; simp only [setUser, setAccount];
         by_cases ho : o = caller <;> simp [ho, hmc, hmo])
  · intro caller userAcct asset lpAmount price now w' hmc hstep
    simp only [withdraw] at hstep
    repeat' split at hstep
    all_goals
      first
      | exact Except.noConfusion hstep
      | (injection hstep with h; subst h; simp only [setUser, setAccount];
         by_cases ho : o = caller <;> simp [ho, hmc, hmo])
  · intro caller userAcct now w' hmc hstep
    simp only [claimRewards] at hstep
    repeat' split at hstep
    all_goals
      first
      | exact Except.noConfusion hstep
      | (injection hstep with h; subst h; simp only [setUser, setAccount];
         by_cases ho : o = caller <;> simp [ho, hmc, hmo])

/-- The world after the first USDC deposit into `w0` (used to instantiate
the mirror-invariant theorem at a successful concrete operation). -/
def afterDepositW0 : World :=
  (deposit w0 7 20 3 1000 1000000 0).toOption.getD w0

/-- Concrete instance of `lp_mirror_preserved`: in `w0` the mirror holds at
owner 7, the deposit of 1000 USDC units by owner 7 succeeds, and in the
resulting world the UserState mirror still equals the on-ledger balance. -/
theorem lp_mirror_preserved_witness :
    (w0.users 7).lpTokenBalance = w0.lpBalances 7 ∧
    deposit w0 7 20 3 1000 1000000 0 = .ok afterDepositW0 ∧
    (afterDepositW0.users 7).lpTokenBalance = afterDepositW0.lpBalances 7 := by
  refine ⟨rfl, ?_, ?_⟩
  · rfl
  · exact (lp_mirror_preserved w0 7 rfl).1 7 20 3 1000 1000000 0 afterDepositW0 rfl (by rfl)

/-- A concrete history against a pool initialized with the same token
account (address 11) as both `usdcVault` and `usdcRewardVault`, as the
callers in `initialize-pool.ts` and `deposit.test.ts` do: user 7 deposits
100 USDC and user 8 deposits 900 USDC (mint 3, price 10^6, so 1 raw unit =
1 USD); the admin funds 100 reward units at rate 1 (window `[0, 100]`);
at time 100 user 8 withdraws all 900 LP, then both users claim rewards. -/
def runC10 : Except Err World := do
  let p ← initPool false 1 2 3 10 11 4 11
  let w1 : World :=
    { pool := p
      accounts := fun a => if a = 20 then 100 else if a = 22 then 900 else if a = 21 then 100 else 0
      lpSupply := 0
      lpBalances := fun _ => 0
      users := fun _ => ⟨0, 0, 0⟩ }
  let w2 ← deposit w1 7 20 3 100 1000000 0
  let w3 ← deposit w2 8 22 3 900 1000000 0
  let w4 ← startRewards w3 1 21 100 1 0
  let w5 ← withdraw w4 8 22 3 900 1000000 100
  let w6 ← claimRewards w5 8 22 100
  claimRewards w6 7 20 100

/-- C10. `initPool` imposes no distinctness constraint between the stable
deposit vault and the reward vault: passing account 11 as both `usdcVault`
and `usdcRewardVault` is accepted and the pool initializes successfully,
and deposited principal and reward funds then share the single balance of
account 11.  In the history `runC10`, 1000 USD of principal and only 100
reward units enter that shared account, yet the two reward claims pay out
190 in total (user 8 withdraws at the window's end before claiming, so the
lazy per-claim accrual over-counts user 7's share): the run succeeds and
ends with only 10 units in the shared vault against `aumUsd = 100` of
outstanding LP claims — a reward claim drew on depositors' principal. -/
theorem shared_reward_vault_commingles :
    (initPool false 1 2 3 10 11 4 11).map (fun p => (p.usdcVault, p.usdcRewardVault)) =
      .ok (11, 11)
    ∧ runC10.map (fun w => (w.accounts 11, w.pool.aumUsd, w.accounts 20, w.accounts 22)) =
      .ok (10, 100, 100, 990) := by
  constructor
  · rfl
  · rfl
